import Mathlib

/-!
Shallow embedding of rawhdd.c, a DOS real-mode HDD imaging program.
On the target compiler `int` and `unsigned int` are 16 bits wide; the
register fields CL, CH, DH returned by int 13h,8 and the BIOS-table head
count are single bytes.  Pure arithmetic is modelled on `Nat`/`Int` with
explicit reductions where the C types wrap.
-/

set_option maxRecDepth 8192

/-- Value of a 16-bit `unsigned int`: arithmetic wraps modulo 2^16. -/
def u16 (n : Nat) : Nat := n % 65536

/-- Value of an 8-bit `unsigned char`. -/
def u8 (n : Nat) : Nat := n % 256

/-- Reading of a 16-bit value as a signed C `int` (two's complement). -/
def toInt16 (n : Nat) : Int :=
  if n % 65536 < 32768 then (n % 65536 : Int) else (n % 65536 : Int) - 65536

/-- Drive geometry held in the globals `tracks`, `heads`, `sectors`. -/
structure Geom where
  tracks : Nat
  heads : Nat
  sectors : Nat
deriving DecidableEq

/-- Sector count decoded from int 13h,8: `sectors=regs.h.cl&0x3f;` (rawhdd.c:110). -/
def int13_sectors (cl : Nat) : Nat := cl &&& 0x3f

/-- Cylinder value computed by `tracks=1+((regs.h.cl&0xc0)<<2)|regs.h.ch;`
(rawhdd.c:111).  C gives `+` higher precedence than `|`, so the expression
parses as `(1 + ((cl & 0xc0) << 2)) | ch`. -/
def int13_tracks (cl ch : Nat) : Nat := (1 + ((cl &&& 0xc0) <<< 2)) ||| ch

/-- Head count decoded from int 13h,8: `heads=1+regs.h.dh;` (rawhdd.c:112). -/
def int13_heads (dh : Nat) : Nat := 1 + dh

/-- Modelled from the spec: the cylinder count is "1 + a value assembled
from two split byte fields", the top two bits of CL shifted into bits 8-9
combined with the CH byte.  Stated only for comparison with `int13_tracks`. -/
def specDerivedCylinders (cl ch : Nat) : Nat := 1 + (((cl &&& 0xc0) <<< 2) ||| ch)

/-- Embedding of `hddinfo` (rawhdd.c:83-127).  Inputs: whether int 13h,8
succeeded (`AH = 0`), the returned register bytes `cl`, `ch`, `dh`, and the
BIOS-table entry fields `hdp->cyls` (an `unsigned int`) and `hdp->heads`
(an `unsigned char`).  Result: the C return value and the values left in the
globals `(tracks, heads, sectors)`, which are 0 at program start.  `cdif` is
`hdp->cyls - tracks` computed in `unsigned int` and stored into an `int`. -/
def hddinfo (queryOk : Bool) (cl ch dh tblCyls tblHeads : Nat) : Int × Geom :=
  if queryOk = false then (1, ⟨0, 0, 0⟩)
  else
    let sectors := int13_sectors cl
    let tracksB := int13_tracks cl ch
    let headsB := int13_heads dh
    let cdif : Int := toInt16 ((u16 tblCyls + 65536 - u16 tracksB) % 65536)
    let rv1 : Bool := decide (1 < cdif)
    let tracks := u16 tblCyls
    let rv2 : Bool := headsB != u8 tblHeads
    let heads := if headsB != u8 tblHeads then u8 tblHeads else headsB
    (if rv1 || rv2 then 1 else 0, ⟨tracks, heads, sectors⟩)

/-- Observable events of one imaging session, in chronological order. -/
inductive Ev where
  | readTrack (track head : Nat) (ok : Bool)
  | readSect (track head sec : Nat) (ok : Bool)
  | reset
  | logTrackOK (track head : Nat)
  | logOK (track head sec : Nat)
  | logERR (track head sec : Nat)
  | write (chunk : List Nat) (ok : Bool)
deriving DecidableEq

/-- Environment model: outcomes of the BIOS calls made through `biosdisk`
(service 2 on a whole track; service 2 on one sector, with an outcome per
retry attempt; service 0 = controller reset) and of `write` on the
destination file (indexed by write call), plus the data a successful read
deposits in the buffer. -/
structure Dev where
  readTrackOk : Nat → Nat → Bool
  trackData : Nat → Nat → List Nat
  readSectOk : Nat → Nat → Nat → Nat → Bool
  sectData : Nat → Nat → Nat → List Nat
  writeOk : Nat → Bool

/-- Running state of the copy loops: the track buffer `buf`, the number of
`write` calls issued so far, and the event trace so far. -/
structure St where
  buf : List Nat
  wIdx : Nat
  trace : List Ev
deriving DecidableEq

/-- First `n` bytes of memory starting at a buffer: the buffer's bytes, then
unspecified bytes (modelled as 0) when the access runs past its end. -/
def memChunk (buf : List Nat) (n : Nat) : List Nat :=
  buf.take n ++ List.replicate (n - buf.length) 0

/-- Result of `copy_track`: 0 = ok, 1 = read failed, -1 = write failed. -/
inductive CTRes where
  | ok
  | readFail
  | writeFail
deriving DecidableEq

/-- Embedding of `copy_track` (rawhdd.c:130-138): one whole-track read into
the track buffer, then one `write` of `trackbytes` bytes from it.  The
buffer contents after a failed read are unspecified; no claim depends on
them and the state is modelled as unchanged there. -/
def copy_track (dev : Dev) (trackbytes : Nat) (head track : Nat) (st : St) : CTRes × St :=
  if dev.readTrackOk track head = false then
    (.readFail, { st with trace := st.trace ++ [.readTrack track head false] })
  else
    let buf := memChunk (dev.trackData track head) trackbytes
    if dev.writeOk st.wIdx then
      (.ok, ⟨buf, st.wIdx + 1, st.trace ++ [.readTrack track head true, .write buf true]⟩)
    else
      (.writeFail, ⟨buf, st.wIdx + 1, st.trace ++ [.readTrack track head true, .write buf false]⟩)

/-- Embedding of the retry loop in `copy_sects` (rawhdd.c:151-159): while
retries remain and the last read failed, reset the controller and read the
sector again.  `attempt` numbers the read attempts on this sector, the
initial read being attempt 0.  Returns the final read result and the events
of the loop. -/
def retryRead (dev : Dev) (track head sec : Nat) : Nat → Nat → Bool × List Ev
  | 0, _ => (false, [])
  | retr + 1, attempt =>
    if dev.readSectOk track head sec attempt then
      (true, [Ev.reset, Ev.readSect track head sec true])
    else
      let r := retryRead dev track head sec retr (attempt + 1)
      (r.1, Ev.reset :: Ev.readSect track head sec false :: r.2)

/-- Read-and-log phase of one iteration of the sector loop of `copy_sects`
(rawhdd.c:148-177): initial read, retry loop on failure (10 retries, each
preceded by a controller reset), then an OK/ERR log line.  On success the
sector's 512 bytes land at the start of the track buffer; after a final
failure the buffer is left as it was. -/
def do_sect_read (dev : Dev) (track head sec : Nat) (st : St) : St :=
  if dev.readSectOk track head sec 0 then
    { st with buf := memChunk (dev.sectData track head sec) 512 ++ st.buf.drop 512,
              trace := st.trace ++ [Ev.readSect track head sec true, Ev.logOK track head sec] }
  else
    let r := retryRead dev track head sec 10 1
    if r.1 then
      { st with buf := memChunk (dev.sectData track head sec) 512 ++ st.buf.drop 512,
                trace := st.trace ++ (Ev.readSect track head sec false :: r.2)
                  ++ [Ev.logOK track head sec] }
    else
      { st with trace := st.trace ++ (Ev.readSect track head sec false :: r.2)
                  ++ [Ev.logERR track head sec] }

/-- Embedding of one iteration of the sector loop of `copy_sects`
(rawhdd.c:146-181): the read-and-log phase, then an unconditional 512-byte
`write` from the start of the buffer ("write no matter what", rawhdd.c:179).
The Bool is false when that write failed (C returns -1). -/
def do_sect (dev : Dev) (track head sec : Nat) (st : St) : Bool × St :=
  let st1 := do_sect_read dev track head sec st
  let chunk := memChunk st1.buf 512
  if dev.writeOk st1.wIdx then
    (true, { st1 with wIdx := st1.wIdx + 1, trace := st1.trace ++ [Ev.write chunk true] })
  else
    (false, { st1 with wIdx := st1.wIdx + 1, trace := st1.trace ++ [Ev.write chunk false] })

/-- Sector loop of `copy_sects`: iterate `do_sect` over the listed sector
numbers, stopping at the first failed write. -/
def copy_sects_go (dev : Dev) (head track : Nat) : List Nat → St → Bool × St
  | [], st => (true, st)
  | sec :: rest, st =>
    let r := do_sect dev track head sec st
    if r.1 then copy_sects_go dev head track rest r.2 else (false, r.2)

/-- Embedding of `copy_sects` (rawhdd.c:141-183); the sectors of a track are
numbered 1..sectors (`for(i=1;i<=sectors;i++)`). -/
def copy_sects (dev : Dev) (sectors head track : Nat) (st : St) : Bool × St :=
  copy_sects_go dev head track (List.range' 1 sectors) st

/-- One (cylinder, head) unit of the main loop (rawhdd.c:329-345): bulk
track copy; on read failure fall back to `copy_sects`; on success append the
aggregate log line.  The Bool is false when a write failed. -/
def do_unit (dev : Dev) (trackbytes sectors track head : Nat) (st : St) : Bool × St :=
  let r := copy_track dev trackbytes head track st
  match r.1 with
  | .ok => (true, { r.2 with trace := r.2.trace ++ [.logTrackOK track head] })
  | .readFail => copy_sects dev sectors head track r.2
  | .writeFail => (false, r.2)

/-- The main double loop over the (cylinder, head) units, stopping at the
first failed write. -/
def run_units (dev : Dev) (trackbytes sectors : Nat) : List (Nat × Nat) → St → Bool × St
  | [], st => (true, st)
  | u :: rest, st =>
    let r := do_unit dev trackbytes sectors u.1 u.2 st
    if r.1 then run_units dev trackbytes sectors rest r.2 else (false, r.2)

/-- Unit order of `for(track=0;track<tracks;track++) for(head=0;head<heads;head++)`
(rawhdd.c:327). -/
def unitList (tracks heads : Nat) : List (Nat × Nat) :=
  (List.range tracks).flatMap fun t => (List.range heads).map fun h => (t, h)

/-- Buffer size `trackbytes=512*sectors;` (rawhdd.c:287), computed in 16-bit
unsigned arithmetic. -/
def trackbytes (sectors : Nat) : Nat := u16 (512 * sectors)

/-- The `malloc`ed track buffer; its initial contents are unspecified and
modelled as zeros (no claim depends on them). -/
def initBuf (sectors : Nat) : List Nat := List.replicate (trackbytes sectors) 0

/-- Outcome of the imaging phase.  `mallocFailed` is the exit taken when the
track-buffer allocation returns NULL (rawhdd.c:289-293). -/
inductive RunRes where
  | completed
  | writeFailed
  | mallocFailed
deriving DecidableEq

/-- Embedding of the imaging phase of `main` (rawhdd.c:287-347): compute
`trackbytes`, allocate the track buffer, then run the double loop.  On the
program's Borland target `malloc(0)` returns NULL, so `trackbytes = 0`
(sector count a multiple of 128, whose 16-bit product wraps to 0) takes the
`buf==NULL` exit of rawhdd.c:289-293 — "malloc failed" — before the
confirmation prompt, the output `open`, and any imaging.  For nonzero sizes
the allocation is assumed to succeed (out-of-memory is environment
dependent and no claim depends on it). -/
def imageRun (dev : Dev) (g : Geom) : RunRes × St :=
  if trackbytes g.sectors = 0 then (.mallocFailed, ⟨[], 0, []⟩)
  else
    let r := run_units dev (trackbytes g.sectors) g.sectors (unitList g.tracks g.heads)
      ⟨initBuf g.sectors, 0, []⟩
    (if r.1 then .completed else .writeFailed, r.2)

/-- Command-line options (`myopts`, rawhdd.c:48-59): the override values as
stored by the int-to-unsigned assignments of rawhdd.c:274-279, and the flags
recording which switches were given. -/
structure Opts where
  tracks : Nat
  heads : Nat
  sectors : Nat
  ts : Bool
  hs : Bool
  ss : Bool
deriving DecidableEq

/-- Overrides applied to the detected geometry (rawhdd.c:274-279). -/
def effectiveGeom (g : Geom) (opts : Opts) : Geom :=
  { tracks := if opts.ts then u16 opts.tracks else g.tracks
    heads := if opts.hs then u16 opts.heads else g.heads
    sectors := if opts.ss then u16 opts.sectors else g.sectors }

/-- Outcome of the geometry phase of `main`. -/
inductive PreResult where
  | queryFatal
  | incompleteGeometry
  | proceed (g : Geom)
deriving DecidableEq

/-- Geometry phase of `main` (rawhdd.c:267-286): call `hddinfo`, exit when
it returned a negative value (`if((rhi=hddinfo())<0)`), apply the overrides,
exit when any geometry field is zero. -/
def mainPre (queryOk : Bool) (cl ch dh tblCyls tblHeads : Nat) (opts : Opts) : PreResult :=
  let r := hddinfo queryOk cl ch dh tblCyls tblHeads
  if r.1 < 0 then .queryFatal
  else
    let g := effectiveGeom r.2 opts
    if g.tracks = 0 || g.heads = 0 || g.sectors = 0 then .incompleteGeometry
    else .proceed g

/-- Outcome of a whole session. -/
inductive SessRes where
  | queryFatal
  | incompleteGeometry
  | mallocFailed
  | completed
  | writeFailed
deriving DecidableEq

/-- Whole session: geometry phase, then (with the user confirming and the
destination file opening) the imaging phase.  The trace is empty when the
program exits before imaging, including at the `malloc` exit. -/
def runSession (queryOk : Bool) (cl ch dh tblCyls tblHeads : Nat) (opts : Opts)
    (dev : Dev) : SessRes × List Ev :=
  match mainPre queryOk cl ch dh tblCyls tblHeads opts with
  | .queryFatal => (.queryFatal, [])
  | .incompleteGeometry => (.incompleteGeometry, [])
  | .proceed g =>
    let r := imageRun dev g
    match r.1 with
    | .mallocFailed => (.mallocFailed, [])
    | .completed => (.completed, r.2.trace)
    | .writeFailed => (.writeFailed, r.2.trace)

/-- Bytes a successful write event appends to the destination file. -/
def writePayload : Ev → Option (List Nat)
  | .write chunk true => some chunk
  | _ => none

/-- Contents of the destination file: the concatenation of all successful
writes, in order. -/
def output (tr : List Ev) : List Nat := (tr.filterMap writePayload).flatten

/-- Recognizer for a read attempt on one sector. -/
def isReadOf (track head sec : Nat) : Ev → Bool
  | .readSect t h s _ => t == track && h == head && s == sec
  | _ => false

/-- Number of read attempts on one sector in a trace. -/
def readCount (track head sec : Nat) (tr : List Ev) : Nat :=
  (tr.filter (isReadOf track head sec)).length

/-- Recognizer for a controller reset. -/
def isReset : Ev → Bool
  | .reset => true
  | _ => false

/-- Number of controller resets in a trace. -/
def resetCount (tr : List Ev) : Nat := (tr.filter isReset).length

/-- Recognizer for an "ERR" log line for one sector. -/
def isErrOf (track head sec : Nat) : Ev → Bool
  | .logERR t h s => t == track && h == head && s == sec
  | _ => false

/-- Number of "ERR" log lines for one sector in a trace. -/
def errCount (track head sec : Nat) (tr : List Ev) : Nat :=
  (tr.filter (isErrOf track head sec)).length

/-- A trace segment containing no failed write. -/
def NoFailW (l : List Ev) : Prop := ∀ chunk, Ev.write chunk false ∉ l

/-- Event sequence of one fallback sector all of whose reads fail: the
initial failed attempt, ten retries each preceded by a controller reset, one
ERR log line, and the unconditional 512-byte write of `chunk`. -/
def fallbackFailTrace (track head sec : Nat) (chunk : List Nat) : List Ev :=
  (Ev.readSect track head sec false ::
    (List.replicate 10 [Ev.reset, Ev.readSect track head sec false]).flatten)
    ++ [Ev.logERR track head sec] ++ [Ev.write chunk true]

/-- Device on which every BIOS read and every file write succeeds, the reads
delivering no bytes (the buffer model pads). -/
def allOkDev : Dev :=
  { readTrackOk := fun _ _ => true
    trackData := fun _ _ => []
    readSectOk := fun _ _ _ _ => true
    sectData := fun _ _ _ => []
    writeOk := fun _ => true }

/-- Device on which every read fails (track reads too, forcing the
fallback) while writes succeed. -/
def failReadDev : Dev :=
  { readTrackOk := fun _ _ => false
    trackData := fun _ _ => []
    readSectOk := fun _ _ _ _ => false
    sectData := fun _ _ _ => []
    writeOk := fun _ => true }

/-- Device on which reads succeed but every write fails. -/
def failWriteDev : Dev :=
  { readTrackOk := fun _ _ => true
    trackData := fun _ _ => []
    readSectOk := fun _ _ _ _ => true
    sectData := fun _ _ _ => []
    writeOk := fun _ => false }

/-- Device whose track reads fail but whose sector reads succeed, writes
succeeding: every unit goes through the fallback. -/
def fallbackDev : Dev :=
  { readTrackOk := fun _ _ => false
    trackData := fun _ _ => []
    readSectOk := fun _ _ _ _ => true
    sectData := fun _ _ _ => []
    writeOk := fun _ => true }

/-- Device delivering a full 512-byte track on the bulk path. -/
def oneSectorDev : Dev :=
  { readTrackOk := fun _ _ => true
    trackData := fun _ _ => List.replicate 512 0
    readSectOk := fun _ _ _ _ => true
    sectData := fun _ _ _ => List.replicate 512 0
    writeOk := fun _ => true }

/-! Helper lemmas. -/

lemma memChunk_length (buf : List Nat) (n : Nat) : (memChunk buf n).length = n := by
  simp [memChunk]
  omega

lemma memChunk_of_length {l : List Nat} {n : Nat} (h : l.length = n) : memChunk l n = l := by
  subst h
  simp [memChunk]

lemma output_append (a b : List Ev) : output (a ++ b) = output a ++ output b := by
  simp [output]

lemma noFailW_nil : NoFailW [] := by
  intro c hc
  cases hc

lemma noFailW_append {a b : List Ev} (ha : NoFailW a) (hb : NoFailW b) : NoFailW (a ++ b) := by
  intro c hc
  rcases List.mem_append.mp hc with hm | hm
  · exact ha c hm
  · exact hb c hm

lemma noFailW_cons {e : Ev} {l : List Ev} (he : ∀ chunk, e ≠ Ev.write chunk false)
    (hl : NoFailW l) : NoFailW (e :: l) := by
  intro c hc
  rcases List.mem_cons.mp hc with hm | hm
  · exact he c hm.symm
  · exact hl c hm

lemma retryRead_mem (dev : Dev) (t h sec : Nat) :
    ∀ retr attempt, ∀ e ∈ (retryRead dev t h sec retr attempt).2,
      e = Ev.reset ∨ ∃ ok, e = Ev.readSect t h sec ok := by
  intro retr
  induction retr with
  | zero =>
    intro a e he
    cases he
  | succ n ih =>
    intro a e he
    rw [retryRead] at he
    by_cases hr : dev.readSectOk t h sec a = true
    · rw [if_pos hr] at he
      simp at he
      rcases he with h1 | h1
      · exact Or.inl h1
      · exact Or.inr ⟨true, h1⟩
    · rw [if_neg hr] at he
      simp at he
      rcases he with h1 | h1 | h1
      · exact Or.inl h1
      · exact Or.inr ⟨false, h1⟩
      · exact ih (a + 1) e h1

lemma retryRead_noFailW (dev : Dev) (t h sec retr attempt : Nat) :
    NoFailW (retryRead dev t h sec retr attempt).2 := by
  intro c hc
  rcases retryRead_mem dev t h sec retr attempt _ hc with h1 | ⟨ok, h1⟩
  · cases h1
  · cases h1

lemma output_eq_nil {l : List Ev} (h : ∀ e ∈ l, writePayload e = none) : output l = [] := by
  simp [output, List.filterMap_eq_nil_iff.mpr h]

lemma retryRead_output (dev : Dev) (t h sec retr attempt : Nat) :
    output (retryRead dev t h sec retr attempt).2 = [] := by
  refine output_eq_nil ?_
  intro e he
  rcases retryRead_mem dev t h sec retr attempt e he with h1 | ⟨ok, h1⟩
  · subst h1; rfl
  · subst h1; rfl

lemma retryRead_fail (dev : Dev) (t h sec : Nat)
    (hf : ∀ k, dev.readSectOk t h sec k = false) :
    ∀ retr attempt, retryRead dev t h sec retr attempt =
      (false, (List.replicate retr [Ev.reset, Ev.readSect t h sec false]).flatten) := by
  intro retr
  induction retr with
  | zero => intro a; rfl
  | succ n ih =>
    intro a
    rw [retryRead, if_neg (by simp [hf a]), ih (a + 1)]
    simp [List.replicate_succ]

lemma filter_flatten_replicate (p : Ev → Bool) (n : Nat) (l : List Ev) :
    ((List.replicate n l).flatten.filter p).length = n * (l.filter p).length := by
  induction n with
  | zero => simp
  | succ m ih =>
    simp [List.replicate_succ, List.filter_append, ih]
    ring

lemma copy_track_readFail (dev : Dev) (tb hd t : Nat) (st : St)
    (h : dev.readTrackOk t hd = false) :
    copy_track dev tb hd t st =
      (.readFail, { st with trace := st.trace ++ [Ev.readTrack t hd false] }) := by
  simp [copy_track, h]

lemma copy_track_ok (dev : Dev) (tb hd t : Nat) (st : St)
    (h : dev.readTrackOk t hd = true) (hw : dev.writeOk st.wIdx = true) :
    copy_track dev tb hd t st =
      (.ok, ⟨memChunk (dev.trackData t hd) tb, st.wIdx + 1,
        st.trace ++ [Ev.readTrack t hd true,
          Ev.write (memChunk (dev.trackData t hd) tb) true]⟩) := by
  simp [copy_track, h, hw]

lemma copy_track_writeFail (dev : Dev) (tb hd t : Nat) (st : St)
    (h : dev.readTrackOk t hd = true) (hw : dev.writeOk st.wIdx = false) :
    copy_track dev tb hd t st =
      (.writeFail, ⟨memChunk (dev.trackData t hd) tb, st.wIdx + 1,
        st.trace ++ [Ev.readTrack t hd true,
          Ev.write (memChunk (dev.trackData t hd) tb) false]⟩) := by
  simp [copy_track, h, hw]

lemma do_sect_read_spec (dev : Dev) (t hd sec : Nat) (st : St) :
    ∃ Δ, do_sect_read dev t hd sec st =
        { st with buf := (do_sect_read dev t hd sec st).buf, trace := st.trace ++ Δ } ∧
      NoFailW Δ ∧ output Δ = [] := by
  unfold do_sect_read
  by_cases h0 : dev.readSectOk t hd sec 0 = true
  · rw [if_pos h0]
    refine ⟨[Ev.readSect t hd sec true, Ev.logOK t hd sec], rfl, ?_, rfl⟩
    intro c hc
    simp at hc
  · rw [if_neg h0]
    by_cases h1 : (retryRead dev t hd sec 10 1).1 = true
    · rw [if_pos h1]
      refine ⟨Ev.readSect t hd sec false :: (retryRead dev t hd sec 10 1).2
        ++ [Ev.logOK t hd sec], ?_, ?_, ?_⟩
      · simp
      · refine noFailW_cons (by intro c hc; cases hc) (noFailW_append (retryRead_noFailW _ _ _ _ _ _) ?_)
        intro c hc
        simp at hc
      · refine output_eq_nil ?_
        intro e he
        simp at he
        rcases he with h2 | h2 | h2
        · subst h2; rfl
        · rcases retryRead_mem dev t hd sec 10 1 e h2 with h3 | ⟨ok, h3⟩ <;> subst h3 <;> rfl
        · subst h2; rfl
    · rw [if_neg h1]
      refine ⟨Ev.readSect t hd sec false :: (retryRead dev t hd sec 10 1).2
        ++ [Ev.logERR t hd sec], ?_, ?_, ?_⟩
      · simp
      · refine noFailW_cons (by intro c hc; cases hc) (noFailW_append (retryRead_noFailW _ _ _ _ _ _) ?_)
        intro c hc
        simp at hc
      · refine output_eq_nil ?_
        intro e he
        simp at he
        rcases he with h2 | h2 | h2
        · subst h2; rfl
        · rcases retryRead_mem dev t hd sec 10 1 e h2 with h3 | ⟨ok, h3⟩ <;> subst h3 <;> rfl
        · subst h2; rfl

lemma do_sect_read_wIdx (dev : Dev) (t hd sec : Nat) (st : St) :
    (do_sect_read dev t hd sec st).wIdx = st.wIdx := by
  unfold do_sect_read
  by_cases h0 : dev.readSectOk t hd sec 0 = true
  · rw [if_pos h0]
  · rw [if_neg h0]
    by_cases h1 : (retryRead dev t hd sec 10 1).1 = true
    · rw [if_pos h1]
    · rw [if_neg h1]

lemma do_sect_spec (dev : Dev) (t hd sec : Nat) (st : St) :
    ∃ Δ, (do_sect dev t hd sec st).2.trace = st.trace ++ Δ ∧
      ((do_sect dev t hd sec st).1 = true → NoFailW Δ ∧ (output Δ).length = 512) ∧
      ((do_sect dev t hd sec st).1 = false →
        ∃ Δ₀ c, Δ = Δ₀ ++ [Ev.write c false] ∧ NoFailW Δ₀) := by
  obtain ⟨Δ₁, hst1, hnf1, hout1⟩ := do_sect_read_spec dev t hd sec st
  unfold do_sect
  by_cases hw : dev.writeOk (do_sect_read dev t hd sec st).wIdx = true
  · rw [if_pos hw]
    refine ⟨Δ₁ ++ [Ev.write (memChunk (do_sect_read dev t hd sec st).buf 512) true], ?_, ?_, ?_⟩
    · conv_lhs => rw [hst1]
      simp
    · intro _
      constructor
      · refine noFailW_append hnf1 ?_
        intro c hc
        simp at hc
      · rw [output_append, hout1]
        simp [output, writePayload, memChunk_length]
    · intro hfalse
      cases hfalse
  · rw [if_neg hw]
    refine ⟨Δ₁ ++ [Ev.write (memChunk (do_sect_read dev t hd sec st).buf 512) false], ?_, ?_, ?_⟩
    · conv_lhs => rw [hst1]
      simp
    · intro htrue
      cases htrue
    · intro _
      exact ⟨Δ₁, _, rfl, hnf1⟩

lemma sects_go_spec (dev : Dev) (hd t : Nat) :
    ∀ (secs : List Nat) (st : St), ∃ Δ,
      (copy_sects_go dev hd t secs st).2.trace = st.trace ++ Δ ∧
      ((copy_sects_go dev hd t secs st).1 = true →
        NoFailW Δ ∧ (output Δ).length = 512 * secs.length) ∧
      ((copy_sects_go dev hd t secs st).1 = false →
        ∃ Δ₀ c, Δ = Δ₀ ++ [Ev.write c false] ∧ NoFailW Δ₀) := by
  intro secs
  induction secs with
  | nil =>
    intro st
    refine ⟨[], by simp [copy_sects_go], ?_, ?_⟩
    · intro _
      exact ⟨noFailW_nil, by simp [output]⟩
    · intro hfalse
      simp [copy_sects_go] at hfalse
  | cons sec rest ih =>
    intro st
    obtain ⟨Δ1, ht1, hok1, hfail1⟩ := do_sect_spec dev t hd sec st
    cases h1 : (do_sect dev t hd sec st).1 with
    | true =>
      obtain ⟨Δ2, ht2, hok2, hfail2⟩ := ih (do_sect dev t hd sec st).2
      have hred : copy_sects_go dev hd t (sec :: rest) st =
          copy_sects_go dev hd t rest (do_sect dev t hd sec st).2 := by
        simp [copy_sects_go, h1]
      refine ⟨Δ1 ++ Δ2, ?_, ?_, ?_⟩
      · rw [hred, ht2, ht1, List.append_assoc]
      · intro hdone
        rw [hred] at hdone
        obtain ⟨hnf2, hlen2⟩ := hok2 hdone
        obtain ⟨hnf1, hlen1⟩ := hok1 h1
        refine ⟨noFailW_append hnf1 hnf2, ?_⟩
        rw [output_append, List.length_append, hlen1, hlen2]
        simp [Nat.mul_succ, Nat.mul_add, Nat.add_comm]
      · intro hfail
        rw [hred] at hfail
        obtain ⟨Δ₀, c, hΔ, hnf0⟩ := hfail2 hfail
        obtain ⟨hnf1, _⟩ := hok1 h1
        exact ⟨Δ1 ++ Δ₀, c, by rw [hΔ, List.append_assoc], noFailW_append hnf1 hnf0⟩
    | false =>
      have hred : copy_sects_go dev hd t (sec :: rest) st =
          (false, (do_sect dev t hd sec st).2) := by
        simp [copy_sects_go, h1]
      refine ⟨Δ1, by rw [hred]; exact ht1, ?_, ?_⟩
      · intro hdone
        rw [hred] at hdone
        cases hdone
      · intro _
        exact hfail1 h1

lemma do_unit_spec (dev : Dev) (tb s t hd : Nat) (st : St) :
    ∃ Δ, (do_unit dev tb s t hd st).2.trace = st.trace ++ Δ ∧
      ((do_unit dev tb s t hd st).1 = true →
        NoFailW Δ ∧ (tb = 512 * s → (output Δ).length = tb) ∧
        (dev.readTrackOk t hd = false → (output Δ).length = 512 * s)) ∧
      ((do_unit dev tb s t hd st).1 = false →
        ∃ Δ₀ c, Δ = Δ₀ ++ [Ev.write c false] ∧ NoFailW Δ₀) := by
  cases hr : dev.readTrackOk t hd with
  | false =>
    have hct := copy_track_readFail dev tb hd t st hr
    have hred : do_unit dev tb s t hd st =
        copy_sects dev s hd t { st with trace := st.trace ++ [Ev.readTrack t hd false] } := by
      simp [do_unit, hct, copy_sects]
    obtain ⟨Δs, hts, hoks, hfails⟩ := sects_go_spec dev hd t (List.range' 1 s)
      { st with trace := st.trace ++ [Ev.readTrack t hd false] }
    rw [copy_sects] at hred
    refine ⟨Ev.readTrack t hd false :: Δs, ?_, ?_, ?_⟩
    · rw [hred, hts]
      simp
    · intro hdone
      rw [hred] at hdone
      obtain ⟨hnf, hlen⟩ := hoks hdone
      have houtc : output (Ev.readTrack t hd false :: Δs) = output Δs := by
        have hsplit : (Ev.readTrack t hd false :: Δs) = [Ev.readTrack t hd false] ++ Δs := rfl
        rw [hsplit, output_append]
        rfl
      refine ⟨noFailW_cons (by intro c hc; cases hc) hnf, ?_, ?_⟩
      · intro htb
        rw [houtc, hlen, List.length_range', htb]
      · intro _
        rw [houtc, hlen, List.length_range']
    · intro hfail
      rw [hred] at hfail
      obtain ⟨Δ₀, c, hΔ, hnf0⟩ := hfails hfail
      exact ⟨Ev.readTrack t hd false :: Δ₀, c, by rw [hΔ]; simp,
        noFailW_cons (by intro c hc; cases hc) hnf0⟩
  | true =>
    cases hw : dev.writeOk st.wIdx with
    | true =>
      have hct := copy_track_ok dev tb hd t st hr hw
      have hred : do_unit dev tb s t hd st =
          (true, ⟨memChunk (dev.trackData t hd) tb, st.wIdx + 1,
            (st.trace ++ [Ev.readTrack t hd true, Ev.write (memChunk (dev.trackData t hd) tb) true])
              ++ [Ev.logTrackOK t hd]⟩) := by
        simp [do_unit, hct]
      refine ⟨[Ev.readTrack t hd true, Ev.write (memChunk (dev.trackData t hd) tb) true,
        Ev.logTrackOK t hd], ?_, ?_, ?_⟩
      · rw [hred]
        simp
      · intro _
        refine ⟨?_, ?_, ?_⟩
        · intro c hc
          simp at hc
        · intro _
          simp [output, writePayload, memChunk_length]
        · intro hfalse
          cases hfalse
      · intro hfail
        rw [hred] at hfail
        cases hfail
    | false =>
      have hct := copy_track_writeFail dev tb hd t st hr hw
      have hred : do_unit dev tb s t hd st =
          (false, ⟨memChunk (dev.trackData t hd) tb, st.wIdx + 1,
            st.trace ++ [Ev.readTrack t hd true,
              Ev.write (memChunk (dev.trackData t hd) tb) false]⟩) := by
        simp [do_unit, hct]
      refine ⟨[Ev.readTrack t hd true, Ev.write (memChunk (dev.trackData t hd) tb) false], ?_, ?_, ?_⟩
      · rw [hred]
      · intro htrue
        rw [hred] at htrue
        cases htrue
      · intro _
        refine ⟨[Ev.readTrack t hd true], _, rfl, ?_⟩
        intro c hc
        simp at hc

lemma run_units_spec (dev : Dev) (tb s : Nat) :
    ∀ (units : List (Nat × Nat)) (st : St), ∃ Δ,
      (run_units dev tb s units st).2.trace = st.trace ++ Δ ∧
      ((run_units dev tb s units st).1 = true →
        NoFailW Δ ∧ (tb = 512 * s → (output Δ).length = units.length * tb)) ∧
      ((run_units dev tb s units st).1 = true → (∀ a b, dev.readTrackOk a b = false) →
        (output Δ).length = units.length * (512 * s)) ∧
      ((run_units dev tb s units st).1 = false →
        ∃ Δ₀ c, Δ = Δ₀ ++ [Ev.write c false] ∧ NoFailW Δ₀) := by
  intro units
  induction units with
  | nil =>
    intro st
    refine ⟨[], by simp [run_units], ?_, ?_, ?_⟩
    · intro _
      exact ⟨noFailW_nil, by intro _; simp [output]⟩
    · intro _ _
      simp [output]
    · intro hfalse
      simp [run_units] at hfalse
  | cons u rest ih =>
    intro st
    obtain ⟨Δ1, ht1, hok1, hfail1⟩ := do_unit_spec dev tb s u.1 u.2 st
    cases h1 : (do_unit dev tb s u.1 u.2 st).1 with
    | true =>
      obtain ⟨Δ2, ht2, hok2, hfb2, hfail2⟩ := ih (do_unit dev tb s u.1 u.2 st).2
      have hred : run_units dev tb s (u :: rest) st =
          run_units dev tb s rest (do_unit dev tb s u.1 u.2 st).2 := by
        simp [run_units, h1]
      refine ⟨Δ1 ++ Δ2, ?_, ?_, ?_, ?_⟩
      · rw [hred, ht2, ht1, List.append_assoc]
      · intro hdone
        rw [hred] at hdone
        obtain ⟨hnf2, hlen2⟩ := hok2 hdone
        obtain ⟨hnf1, hlen1, hfb1⟩ := hok1 h1
        refine ⟨noFailW_append hnf1 hnf2, ?_⟩
        intro htb
        rw [output_append, List.length_append, hlen1 htb, hlen2 htb,
          List.length_cons, Nat.succ_mul]
        exact Nat.add_comm _ _
      · intro hdone hall
        rw [hred] at hdone
        obtain ⟨hnf1, hlen1, hfb1⟩ := hok1 h1
        rw [output_append, List.length_append, hfb1 (hall u.1 u.2), hfb2 hdone hall,
          List.length_cons, Nat.add_mul, Nat.one_mul]
        exact Nat.add_comm _ _
      · intro hfail
        rw [hred] at hfail
        obtain ⟨Δ₀, c, hΔ, hnf0⟩ := hfail2 hfail
        obtain ⟨hnf1, _, _⟩ := hok1 h1
        exact ⟨Δ1 ++ Δ₀, c, by rw [hΔ, List.append_assoc], noFailW_append hnf1 hnf0⟩
    | false =>
      have hred : run_units dev tb s (u :: rest) st =
          (false, (do_unit dev tb s u.1 u.2 st).2) := by
        simp [run_units, h1]
      refine ⟨Δ1, by rw [hred]; exact ht1, ?_, ?_, ?_⟩
      · intro hdone
        rw [hred] at hdone
        cases hdone
      · intro hdone _
        rw [hred] at hdone
        cases hdone
      · intro _
        exact hfail1 h1

lemma unitList_length (c h : Nat) : (unitList c h).length = c * h := by
  simp [unitList]
  induction c with
  | zero => simp
  | succ n ih => simp [List.range_succ, ih, Nat.succ_mul]

lemma trackbytes_of_fit {s : Nat} (hfit : 512 * s < 65536) : trackbytes s = 512 * s := by
  simp [trackbytes, u16, Nat.mod_eq_of_lt hfit]

lemma imageRun_malloc (dev : Dev) (g : Geom) (h0 : trackbytes g.sectors = 0) :
    imageRun dev g = (.mallocFailed, ⟨[], 0, []⟩) := by
  simp [imageRun, h0]

lemma imageRun_res (dev : Dev) (g : Geom) (h0 : trackbytes g.sectors ≠ 0) :
    (imageRun dev g).1 = .completed ↔
      (run_units dev (trackbytes g.sectors) g.sectors (unitList g.tracks g.heads)
        ⟨initBuf g.sectors, 0, []⟩).1 = true := by
  unfold imageRun
  rw [if_neg h0]
  cases hr : (run_units dev (trackbytes g.sectors) g.sectors (unitList g.tracks g.heads)
      ⟨initBuf g.sectors, 0, []⟩).1 <;> simp [hr]

lemma imageRun_trace (dev : Dev) (g : Geom) (h0 : trackbytes g.sectors ≠ 0) :
    (imageRun dev g).2 =
      (run_units dev (trackbytes g.sectors) g.sectors (unitList g.tracks g.heads)
        ⟨initBuf g.sectors, 0, []⟩).2 := by
  unfold imageRun
  rw [if_neg h0]

lemma trackbytes_pos_of_fit {s : Nat} (hs : 0 < s) (hfit : 512 * s < 65536) :
    trackbytes s ≠ 0 := by
  rw [trackbytes_of_fit hfit]
  omega

lemma imageRun_completed_length (dev : Dev) (c h s : Nat) (hs : 0 < s)
    (hfit : 512 * s < 65536)
    (hdone : (imageRun dev ⟨c, h, s⟩).1 = .completed) :
    (output (imageRun dev ⟨c, h, s⟩).2.trace).length = c * h * (512 * s) := by
  have h0 : trackbytes s ≠ 0 := trackbytes_pos_of_fit hs hfit
  obtain ⟨Δ, ht, hok, _, _⟩ := run_units_spec dev (trackbytes s) s (unitList c h)
    ⟨initBuf s, 0, []⟩
  rw [imageRun_trace dev ⟨c, h, s⟩ h0]
  have hr := (imageRun_res dev ⟨c, h, s⟩ h0).mp hdone
  obtain ⟨_, hlen⟩ := hok hr
  rw [ht]
  simp only [List.nil_append]
  rw [hlen (trackbytes_of_fit hfit), unitList_length, trackbytes_of_fit hfit]

/-- In a trace that is a no-failed-write segment followed by one failed
write, any failed write occurring anywhere is that final one. -/
lemma trailing_write_unique :
    ∀ (pre Δ₀ : List Ev) (c c' : List Nat) (suf : List Ev), NoFailW Δ₀ →
      Δ₀ ++ [Ev.write c false] = pre ++ Ev.write c' false :: suf → suf = [] := by
  intro pre
  induction pre with
  | nil =>
    intro Δ₀ c c' suf hnf heq
    cases Δ₀ with
    | nil =>
      simp at heq
      exact heq.2
    | cons d Δ' =>
      simp at heq
      exfalso
      exact hnf c' (by rw [heq.1]; exact List.mem_cons_self _ _)
  | cons p pre' ih =>
    intro Δ₀ c c' suf hnf heq
    cases Δ₀ with
    | nil =>
      simp at heq
    | cons d Δ' =>
      simp at heq
      refine ih Δ' c c' suf ?_ heq.2
      intro ch hch
      exact hnf ch (List.mem_cons_of_mem _ hch)

lemma hddinfo_rv_nonneg (queryOk : Bool) (cl ch dh tc th : Nat) :
    0 ≤ (hddinfo queryOk cl ch dh tc th).1 := by
  unfold hddinfo
  split
  · norm_num
  · dsimp only
    split <;> norm_num

lemma mainPre_not_queryFatal (queryOk : Bool) (cl ch dh tc th : Nat) (opts : Opts) :
    mainPre queryOk cl ch dh tc th opts ≠ .queryFatal := by
  unfold mainPre
  rw [if_neg (not_lt.mpr (hddinfo_rv_nonneg queryOk cl ch dh tc th))]
  dsimp only
  split <;> simp

lemma run_units_all_ok (dev : Dev) (tb s : Nat)
    (hr : ∀ t hd, dev.readTrackOk t hd = true) (hw : ∀ k, dev.writeOk k = true) :
    ∀ (units : List (Nat × Nat)) (st : St), ∃ b w,
      run_units dev tb s units st = (true, ⟨b, w, st.trace ++ units.flatMap fun u =>
        [Ev.readTrack u.1 u.2 true, Ev.write (memChunk (dev.trackData u.1 u.2) tb) true,
         Ev.logTrackOK u.1 u.2]⟩) := by
  intro units
  induction units with
  | nil =>
    intro st
    exact ⟨st.buf, st.wIdx, by simp [run_units]⟩
  | cons u rest ih =>
    intro st
    have hct := copy_track_ok dev tb u.2 u.1 st (hr u.1 u.2) (hw st.wIdx)
    have hdu : do_unit dev tb s u.1 u.2 st =
        (true, ⟨memChunk (dev.trackData u.1 u.2) tb, st.wIdx + 1,
          (st.trace ++ [Ev.readTrack u.1 u.2 true,
            Ev.write (memChunk (dev.trackData u.1 u.2) tb) true]) ++ [Ev.logTrackOK u.1 u.2]⟩) := by
      simp [do_unit, hct]
    obtain ⟨b, w, hrest⟩ := ih ⟨memChunk (dev.trackData u.1 u.2) tb, st.wIdx + 1,
      (st.trace ++ [Ev.readTrack u.1 u.2 true,
        Ev.write (memChunk (dev.trackData u.1 u.2) tb) true]) ++ [Ev.logTrackOK u.1 u.2]⟩
    refine ⟨b, w, ?_⟩
    have hred : run_units dev tb s (u :: rest) st =
        run_units dev tb s rest ⟨memChunk (dev.trackData u.1 u.2) tb, st.wIdx + 1,
          (st.trace ++ [Ev.readTrack u.1 u.2 true,
            Ev.write (memChunk (dev.trackData u.1 u.2) tb) true]) ++ [Ev.logTrackOK u.1 u.2]⟩ := by
      simp [run_units, hdu]
    rw [hred, hrest]
    simp

lemma output_bulk (dev : Dev) (tb : Nat) :
    ∀ units : List (Nat × Nat),
      output (units.flatMap fun u =>
        [Ev.readTrack u.1 u.2 true, Ev.write (memChunk (dev.trackData u.1 u.2) tb) true,
         Ev.logTrackOK u.1 u.2]) =
      units.flatMap fun u => memChunk (dev.trackData u.1 u.2) tb := by
  intro units
  induction units with
  | nil => rfl
  | cons u rest ih =>
    have hstep : (u :: rest).flatMap (fun u =>
        [Ev.readTrack u.1 u.2 true, Ev.write (memChunk (dev.trackData u.1 u.2) tb) true,
         Ev.logTrackOK u.1 u.2]) =
        [Ev.readTrack u.1 u.2 true, Ev.write (memChunk (dev.trackData u.1 u.2) tb) true,
         Ev.logTrackOK u.1 u.2] ++ rest.flatMap (fun u =>
        [Ev.readTrack u.1 u.2 true, Ev.write (memChunk (dev.trackData u.1 u.2) tb) true,
         Ev.logTrackOK u.1 u.2]) := by
      simp
    rw [hstep, output_append, ih]
    simp [output, writePayload]

/-! Claim theorems. -/

/-- C5: whenever the geometry query completes, the reconciled geometry takes
its cylinder count and its head count from the BIOS table reading and its
sector count from the int 13h,8 query; the query's cylinder and head values
do not appear in the result. -/
theorem C5_table_wins (cl ch dh tblCyls tblHeads : Nat)
    (htc : tblCyls < 65536) (hth : tblHeads < 256) :
    (hddinfo true cl ch dh tblCyls tblHeads).2 = ⟨tblCyls, tblHeads, int13_sectors cl⟩ := by
  unfold hddinfo
  rw [if_neg (by simp)]
  dsimp only
  simp only [Geom.mk.injEq]
  refine ⟨?_, ?_, by trivial⟩
  · simp [u16, Nat.mod_eq_of_lt htc]
  · by_cases hb : (int13_heads dh != u8 tblHeads) = true
    · rw [if_pos hb]
      simp [u8, Nat.mod_eq_of_lt hth]
    · rw [if_neg hb]
      have hbeq : int13_heads dh = u8 tblHeads := by
        simpa using hb
      rw [hbeq]
      simp [u8, Nat.mod_eq_of_lt hth]

/-- C5 witness: table {cyls=100, heads=2} with register bytes CL=17, CH=99,
DH=1 reconciles to (100, 2, 17). -/
theorem C5_table_wins_witness :
    (hddinfo true 17 99 1 100 2).2 = ⟨100, 2, int13_sectors 17⟩ :=
  C5_table_wins 17 99 1 100 2 (by decide) (by decide)

/-- C6 counterexample: with table cylinders 50 and query-derived cylinders
61 (a difference of 11, heads equal), the code flags no mismatch — the
claimed "either direction" behaviour fails, because `cdif>1` is a signed
one-sided test. -/
theorem C6_counterexample :
    int13_tracks 17 60 = 61 ∧ int13_heads 3 = u8 4 ∧
    ¬(((hddinfo true 17 60 3 50 4).1 = 1) ↔
      (1 < ((50 : Int) - (int13_tracks 17 60 : Int)).natAbs ∨ int13_heads 3 ≠ u8 4)) := by
  decide

/-- C6 (amended): the mismatch flag is raised iff the 16-bit signed value of
(table cylinders − query-derived cylinders) exceeds 1 — so a query count
exceeding the table count never raises the cylinder warning — or the head
counts differ. -/
theorem C6_mismatch_flag (cl ch dh tblCyls tblHeads : Nat)
    (htc : tblCyls < 65536) (hth : tblHeads < 256) :
    ((hddinfo true cl ch dh tblCyls tblHeads).1 = 1 ↔
      (1 < toInt16 ((tblCyls + 65536 - u16 (int13_tracks cl ch)) % 65536) ∨
        int13_heads dh ≠ tblHeads)) := by
  unfold hddinfo
  rw [if_neg (by simp)]
  dsimp only
  simp only [u16, u8, Nat.mod_eq_of_lt htc, Nat.mod_eq_of_lt hth]
  by_cases h1 : 1 < toInt16 ((tblCyls + 65536 - int13_tracks cl ch % 65536) % 65536)
  · simp [h1]
  · by_cases h2 : int13_heads dh = tblHeads
    · simp [h1, h2]
    · simp [h1, h2]

/-- C6 witness: table {cyls=50, heads=2}, CL=17, CH=60, DH=1 — neither
condition holds (signed difference is −11, heads equal), no flag. -/
theorem C6_mismatch_flag_witness :
    ((hddinfo true 17 60 1 50 2).1 = 1 ↔
      (1 < toInt16 ((50 + 65536 - u16 (int13_tracks 17 60)) % 65536) ∨
        int13_heads 1 ≠ 2)) :=
  C6_mismatch_flag 17 60 1 50 2 (by decide) (by decide)

/-- C2: the cylinder decode of int 13h,8 disagrees with the documented
formula 1 + (((CL and 0xC0) shifted left 2) or CH): C operator precedence
makes the code compute (1 + shifted) or CH, which loses the +1 exactly when
CH is odd.  At CL=0, CH=1 the code yields 1 where the spec formula yields 2. -/
theorem C2_cylinder_decode_bug :
    int13_tracks 0 1 = 1 ∧ specDerivedCylinders 0 1 = 2 ∧
    (∀ ch < 256, (int13_tracks 0 ch = specDerivedCylinders 0 ch ↔ ch % 2 = 0)) := by
  decide

set_option maxHeartbeats 2000000 in
/-- C3: a failed int 13h,8 query is not fatal: `hddinfo` returns 1, `main`
aborts only on a negative return, so the dedicated fatal branch is
unreachable, and with all three geometry overrides given the session
proceeds to imaging and completes. -/
theorem C3_query_failure_not_fatal :
    mainPre false 0 0 0 0 0 ⟨10, 2, 17, true, true, true⟩ = .proceed ⟨10, 2, 17⟩ ∧
    (∀ (queryOk : Bool) (cl ch dh tblCyls tblHeads : Nat) (opts : Opts),
      mainPre queryOk cl ch dh tblCyls tblHeads opts ≠ .queryFatal) ∧
    (runSession false 0 0 0 0 0 ⟨1, 1, 1, true, true, true⟩ allOkDev).1 = .completed := by
  refine ⟨by decide, mainPre_not_queryFatal, ?_⟩
  decide

/-- C8: if after the command-line overrides any geometry field is zero, the
session ends with the incomplete-geometry failure and the destination file
is never opened or written (the session trace is empty). -/
theorem C8_zero_geometry_aborts (queryOk : Bool) (cl ch dh tblCyls tblHeads : Nat)
    (opts : Opts) (dev : Dev)
    (hz : (effectiveGeom (hddinfo queryOk cl ch dh tblCyls tblHeads).2 opts).tracks = 0 ∨
      (effectiveGeom (hddinfo queryOk cl ch dh tblCyls tblHeads).2 opts).heads = 0 ∨
      (effectiveGeom (hddinfo queryOk cl ch dh tblCyls tblHeads).2 opts).sectors = 0) :
    runSession queryOk cl ch dh tblCyls tblHeads opts dev = (.incompleteGeometry, []) := by
  have hcond : (decide ((effectiveGeom (hddinfo queryOk cl ch dh tblCyls tblHeads).2 opts).tracks = 0) ||
      decide ((effectiveGeom (hddinfo queryOk cl ch dh tblCyls tblHeads).2 opts).heads = 0) ||
      decide ((effectiveGeom (hddinfo queryOk cl ch dh tblCyls tblHeads).2 opts).sectors = 0)) = true := by
    rcases hz with h | h | h <;> simp [h]
  have hpre : mainPre queryOk cl ch dh tblCyls tblHeads opts = .incompleteGeometry := by
    unfold mainPre
    rw [if_neg (not_lt.mpr (hddinfo_rv_nonneg queryOk cl ch dh tblCyls tblHeads))]
    dsimp only
    rw [if_pos hcond]
  simp [runSession, hpre]

/-- C8 witness: a successful query returning CL=0 (sector count 0) with no
overrides ends the session with the incomplete-geometry failure and an
empty trace. -/
theorem C8_zero_geometry_aborts_witness :
    runSession true 0 0 1 100 2 ⟨0, 0, 0, false, false, false⟩ allOkDev =
      (.incompleteGeometry, []) :=
  C8_zero_geometry_aborts true 0 0 1 100 2 ⟨0, 0, 0, false, false, false⟩ allOkDev
    (Or.inr (Or.inr (by decide)))

/-- C9: for every accepted sector count the track buffer holds exactly
`trackbytes` bytes, `trackbytes` is 512 × sectors computed in 16-bit
unsigned arithmetic (equal to the plain product whenever it fits), and a
successful bulk track copy writes exactly `trackbytes` bytes. -/
theorem C9_trackbuffer_size (dev : Dev) (s t hd : Nat) (st : St) (hs : 0 < s)
    (hr : dev.readTrackOk t hd = true) (hw : dev.writeOk st.wIdx = true) :
    (initBuf s).length = trackbytes s ∧
    trackbytes s = 512 * s % 65536 ∧
    (512 * s < 65536 → trackbytes s = 512 * s) ∧
    copy_track dev (trackbytes s) hd t st =
      (.ok, ⟨memChunk (dev.trackData t hd) (trackbytes s), st.wIdx + 1,
        st.trace ++ [Ev.readTrack t hd true,
          Ev.write (memChunk (dev.trackData t hd) (trackbytes s)) true]⟩) ∧
    (memChunk (dev.trackData t hd) (trackbytes s)).length = trackbytes s :=
  ⟨by simp [initBuf], rfl, fun hfit => trackbytes_of_fit hfit,
    copy_track_ok dev (trackbytes s) hd t st hr hw, memChunk_length _ _⟩

/-- C9 witness: sector count 1, a device whose reads and writes succeed. -/
theorem C9_trackbuffer_size_witness :
    (initBuf 1).length = trackbytes 1 ∧
    trackbytes 1 = 512 * 1 % 65536 ∧
    (512 * 1 < 65536 → trackbytes 1 = 512 * 1) ∧
    copy_track allOkDev (trackbytes 1) 0 0 ⟨initBuf 1, 0, []⟩ =
      (.ok, ⟨memChunk (allOkDev.trackData 0 0) (trackbytes 1), 0 + 1,
        [] ++ [Ev.readTrack 0 0 true,
          Ev.write (memChunk (allOkDev.trackData 0 0) (trackbytes 1)) true]⟩) ∧
    (memChunk (allOkDev.trackData 0 0) (trackbytes 1)).length = trackbytes 1 :=
  C9_trackbuffer_size allOkDev 1 0 0 ⟨initBuf 1, 0, []⟩ (by decide) rfl rfl

lemma imageRun_writeFailed_iff (dev : Dev) (g : Geom) (h0 : trackbytes g.sectors ≠ 0) :
    (imageRun dev g).1 = .writeFailed ↔
      (run_units dev (trackbytes g.sectors) g.sectors (unitList g.tracks g.heads)
        ⟨initBuf g.sectors, 0, []⟩).1 = false := by
  unfold imageRun
  rw [if_neg h0]
  cases hr : (run_units dev (trackbytes g.sectors) g.sectors (unitList g.tracks g.heads)
      ⟨initBuf g.sectors, 0, []⟩).1 <;> simp [hr]

/-- C7: a failed write ends the session at once: in any run whose trace
contains a failed write event, nothing at all follows that event (no reads,
resets, log lines, or writes) and the session result is WriteFailed. -/
theorem C7_write_failure_terminal (dev : Dev) (g : Geom) (pre : List Ev) (chunk : List Nat)
    (suf : List Ev)
    (h : (imageRun dev g).2.trace = pre ++ Ev.write chunk false :: suf) :
    suf = [] ∧ (imageRun dev g).1 = .writeFailed := by
  by_cases h0 : trackbytes g.sectors = 0
  · exfalso
    rw [imageRun_malloc dev g h0] at h
    simp at h
  obtain ⟨Δ, ht, hok, _, hfail⟩ := run_units_spec dev (trackbytes g.sectors) g.sectors
    (unitList g.tracks g.heads) ⟨initBuf g.sectors, 0, []⟩
  have htrace : (imageRun dev g).2.trace = Δ := by
    rw [imageRun_trace dev g h0, ht]
    simp
  have hΔeq : Δ = pre ++ Ev.write chunk false :: suf := by
    rw [← htrace, h]
  cases hr : (run_units dev (trackbytes g.sectors) g.sectors (unitList g.tracks g.heads)
      ⟨initBuf g.sectors, 0, []⟩).1 with
  | true =>
    exfalso
    obtain ⟨hnf, _⟩ := hok hr
    refine hnf chunk ?_
    rw [hΔeq]
    simp
  | false =>
    obtain ⟨Δ₀, cc, hΔ, hnf0⟩ := hfail hr
    refine ⟨?_, (imageRun_writeFailed_iff dev g h0).mpr hr⟩
    refine trailing_write_unique pre Δ₀ cc chunk suf hnf0 ?_
    rw [← hΔ]
    exact hΔeq.symm ▸ hΔeq

/-- C7 witness: geometry (1,1,1) with a device whose first write fails: the
failed write is the last event and the session result is WriteFailed. -/
theorem C7_write_failure_terminal_witness :
    ([] : List Ev) = [] ∧ (imageRun failWriteDev ⟨1, 1, 1⟩).1 = .writeFailed :=
  C7_write_failure_terminal failWriteDev ⟨1, 1, 1⟩ [Ev.readTrack 0 0 true]
    (List.replicate 512 0) [] (by rfl)

/-- C4 counterexample: geometry (1, 1, 128) is valid (all fields positive)
and the device would satisfy every bulk read, yet no output file of
1×1×128×512 bytes is produced: the 16-bit computation 512×128 wraps to 0,
`malloc(0)` returns NULL on the target runtime, and the program exits with
"malloc failed" (rawhdd.c:289-293) before the confirmation prompt, the
output `open`, and any write — so the claimed output never comes into
existence for this valid geometry. -/
theorem C4_counterexample :
    imageRun allOkDev ⟨1, 1, 128⟩ = (.mallocFailed, ⟨[], 0, []⟩) ∧
    (output (imageRun allOkDev ⟨1, 1, 128⟩).2.trace).length = 0 ∧
    ¬((output (imageRun allOkDev ⟨1, 1, 128⟩).2.trace).length = 1 * 1 * 128 * 512) := by
  decide

/-- C4 (amended): for every valid geometry whose track size fits in 16 bits
(512 × sectors < 65536), if every bulk track read and every write succeeds,
the run completes and the output is the byte-exact concatenation of the
track data in (cylinder, head) order, of size cylinders × heads × sectors
× 512. -/
theorem C4_bulk_image (dev : Dev) (c h s : Nat) (hc : 0 < c) (hh : 0 < h) (hs : 0 < s)
    (hfit : 512 * s < 65536)
    (hr : ∀ t hd, dev.readTrackOk t hd = true)
    (hw : ∀ k, dev.writeOk k = true)
    (hlen : ∀ t hd, (dev.trackData t hd).length = 512 * s) :
    (imageRun dev ⟨c, h, s⟩).1 = .completed ∧
    output (imageRun dev ⟨c, h, s⟩).2.trace =
      (List.range c).flatMap (fun t => (List.range h).flatMap fun hd => dev.trackData t hd) ∧
    (output (imageRun dev ⟨c, h, s⟩).2.trace).length = c * h * s * 512 := by
  obtain ⟨b, w, hru⟩ := run_units_all_ok dev (trackbytes s) s hr hw (unitList c h)
    ⟨initBuf s, 0, []⟩
  have h0 : trackbytes s ≠ 0 := trackbytes_pos_of_fit hs hfit
  have hres : (imageRun dev ⟨c, h, s⟩).1 = .completed := by
    rw [imageRun_res dev ⟨c, h, s⟩ h0, hru]
  have htr : (imageRun dev ⟨c, h, s⟩).2.trace =
      (unitList c h).flatMap fun u =>
        [Ev.readTrack u.1 u.2 true,
         Ev.write (memChunk (dev.trackData u.1 u.2) (trackbytes s)) true,
         Ev.logTrackOK u.1 u.2] := by
    rw [imageRun_trace dev ⟨c, h, s⟩ h0, hru]
    simp
  have hmem : ∀ u : Nat × Nat,
      memChunk (dev.trackData u.1 u.2) (trackbytes s) = dev.trackData u.1 u.2 := by
    intro u
    rw [trackbytes_of_fit hfit]
    exact memChunk_of_length (hlen u.1 u.2)
  refine ⟨hres, ?_, ?_⟩
  · rw [htr, output_bulk]
    simp only [hmem]
    simp only [unitList]
    rw [List.flatMap_assoc]
    simp [List.flatMap_def, Function.comp_def]
  · rw [imageRun_completed_length dev c h s hs hfit hres]
    ring

/-- C4 witness: geometry (1,1,1) with a device delivering one 512-byte
track per unit. -/
theorem C4_bulk_image_witness :
    (imageRun oneSectorDev ⟨1, 1, 1⟩).1 = .completed ∧
    output (imageRun oneSectorDev ⟨1, 1, 1⟩).2.trace =
      (List.range 1).flatMap (fun t => (List.range 1).flatMap fun hd =>
        oneSectorDev.trackData t hd) ∧
    (output (imageRun oneSectorDev ⟨1, 1, 1⟩).2.trace).length = 1 * 1 * 1 * 512 :=
  C4_bulk_image oneSectorDev 1 1 1 (by decide) (by decide) (by decide) (by decide)
    (fun t hd => rfl) (fun k => rfl) (fun t hd => by simp [oneSectorDev])

/-- C10: on every execution whose behaviour the C program defines, each
(cylinder, head) unit that completes without a write error appends exactly
512 × sectors bytes, and a session that finishes without WriteFailed
produces exactly cylinders × heads × sectors × 512 output bytes even when
fallback occurred.  The conjuncts cover the whole well-defined domain:
units handled by either path when the track fits its buffer
(512 × sectors < 65536); fallback-handled units for any larger sector count
that reaches imaging (the fallback touches only the first 512 buffer bytes,
and `trackbytes ≠ 0` is a multiple of 512); the session consequence in both
regimes; and the boundary where `trackbytes` wraps to 0, at which the
program exits at the `malloc` check before any unit runs.  (Outside these —
a bulk read with 512 × sectors ≥ 65536 — the read overruns the allocation
and the program's behaviour is undefined.) -/
theorem C10_alignment_size (dev : Dev) (c h s : Nat) (hc : 0 < c) (hh : 0 < h) (hs : 0 < s) :
    (∀ (t hd : Nat) (st : St) (Δ : List Ev), 512 * s < 65536 →
      (do_unit dev (trackbytes s) s t hd st).1 = true →
      (do_unit dev (trackbytes s) s t hd st).2.trace = st.trace ++ Δ →
      (output Δ).length = 512 * s) ∧
    (∀ (t hd : Nat) (st : St) (Δ : List Ev), trackbytes s ≠ 0 → s < 32768 →
      dev.readTrackOk t hd = false →
      (do_unit dev (trackbytes s) s t hd st).1 = true →
      (do_unit dev (trackbytes s) s t hd st).2.trace = st.trace ++ Δ →
      (output Δ).length = 512 * s) ∧
    (512 * s < 65536 → (imageRun dev ⟨c, h, s⟩).1 = .completed →
      (output (imageRun dev ⟨c, h, s⟩).2.trace).length = c * h * s * 512) ∧
    (trackbytes s ≠ 0 → s < 32768 → (∀ a b, dev.readTrackOk a b = false) →
      (imageRun dev ⟨c, h, s⟩).1 = .completed →
      (output (imageRun dev ⟨c, h, s⟩).2.trace).length = c * h * s * 512) ∧
    (trackbytes s = 0 → imageRun dev ⟨c, h, s⟩ = (.mallocFailed, ⟨[], 0, []⟩)) := by
  refine ⟨?_, ?_, ?_, ?_, fun h0 => imageRun_malloc dev ⟨c, h, s⟩ h0⟩
  · intro t hd st Δ hfit hdone htr
    obtain ⟨Δ', ht', hok', _⟩ := do_unit_spec dev (trackbytes s) s t hd st
    obtain ⟨_, hlen, _⟩ := hok' hdone
    have hΔ : Δ = Δ' := List.append_cancel_left (htr.symm.trans ht')
    rw [hΔ, ← trackbytes_of_fit hfit]
    exact hlen (trackbytes_of_fit hfit)
  · intro t hd st Δ _ _ hrt hdone htr
    obtain ⟨Δ', ht', hok', _⟩ := do_unit_spec dev (trackbytes s) s t hd st
    obtain ⟨_, _, hfb⟩ := hok' hdone
    have hΔ : Δ = Δ' := List.append_cancel_left (htr.symm.trans ht')
    rw [hΔ]
    exact hfb hrt
  · intro hfit hdone
    rw [imageRun_completed_length dev c h s hs hfit hdone]
    ring
  · intro h0 _ hall hdone
    obtain ⟨Δ, ht, _, hfb, _⟩ := run_units_spec dev (trackbytes s) s (unitList c h)
      ⟨initBuf s, 0, []⟩
    have hr := (imageRun_res dev ⟨c, h, s⟩ h0).mp hdone
    rw [imageRun_trace dev ⟨c, h, s⟩ h0, ht]
    simp only [List.nil_append]
    rw [hfb hr hall, unitList_length]
    ring

set_option maxHeartbeats 1000000 in
/-- C10 witness: geometry (1,1,1) against a device whose track reads all
fail but whose sector reads succeed: the whole image goes through the
fallback and the output still has 1×1×1×512 bytes. -/
theorem C10_alignment_size_witness :
    (output (imageRun fallbackDev ⟨1, 1, 1⟩).2.trace).length = 1 * 1 * 1 * 512 :=
  (C10_alignment_size fallbackDev 1 1 1 (by decide) (by decide) (by decide)).2.2.2.1
    (by decide) (by decide) (fun a b => rfl) (by decide)

set_option maxHeartbeats 2000000 in
/-- C1 counterexample: running the fallback on a one-sector track whose
reads all fail performs 11 read attempts on that sector (1 initial + 10
retries), not 10. -/
theorem C1_counterexample :
    readCount 0 0 1 (copy_sects failReadDev 1 0 0 ⟨initBuf 1, 0, []⟩).2.trace = 11 ∧
    readCount 0 0 1 (copy_sects failReadDev 1 0 0 ⟨initBuf 1, 0, []⟩).2.trace ≠ 10 := by
  decide

/-- C1 (amended): a sector whose reads all fail gets exactly 11 read
attempts — the initial attempt plus 10 retries, a controller reset
immediately preceding each retry but not the initial attempt — exactly one
ERR log line for its (cylinder, head, sector) triple, and the output still
advances by exactly 512 bytes. -/
theorem C1_fallback_retry_trace (dev : Dev) (t hd sec : Nat) (st : St)
    (hf : ∀ k, dev.readSectOk t hd sec k = false)
    (hw : dev.writeOk st.wIdx = true) :
    do_sect dev t hd sec st =
      (true, ⟨st.buf, st.wIdx + 1,
        st.trace ++ fallbackFailTrace t hd sec (memChunk st.buf 512)⟩) ∧
    readCount t hd sec (fallbackFailTrace t hd sec (memChunk st.buf 512)) = 11 ∧
    resetCount (fallbackFailTrace t hd sec (memChunk st.buf 512)) = 10 ∧
    errCount t hd sec (fallbackFailTrace t hd sec (memChunk st.buf 512)) = 1 ∧
    output (fallbackFailTrace t hd sec (memChunk st.buf 512)) = memChunk st.buf 512 ∧
    (memChunk st.buf 512).length = 512 := by
  have hread : do_sect_read dev t hd sec st =
      { st with trace := st.trace ++ (Ev.readSect t hd sec false ::
          (List.replicate 10 [Ev.reset, Ev.readSect t hd sec false]).flatten)
          ++ [Ev.logERR t hd sec] } := by
    unfold do_sect_read
    rw [if_neg (by simp [hf 0])]
    rw [retryRead_fail dev t hd sec hf 10 1]
    simp
  refine ⟨?_, ?_, ?_, ?_, ?_, memChunk_length _ _⟩
  · unfold do_sect
    rw [hread]
    dsimp only
    rw [if_pos hw]
    simp [fallbackFailTrace, List.append_assoc]
  · simp [readCount, fallbackFailTrace, List.filter_append, filter_flatten_replicate, isReadOf]
  · simp [resetCount, fallbackFailTrace, List.filter_append, filter_flatten_replicate,
      isReset]
  · simp [errCount, fallbackFailTrace, List.filter_append, filter_flatten_replicate, isErrOf]
  · have h1 : output (Ev.readSect t hd sec false ::
        (List.replicate 10 [Ev.reset, Ev.readSect t hd sec false]).flatten) = [] := by
      refine output_eq_nil ?_
      intro e he
      cases e with
      | write chunk ok =>
        exfalso
        simp [List.mem_flatten, List.mem_replicate] at he
      | readTrack a b ok => rfl
      | readSect a b c ok => rfl
      | reset => rfl
      | logTrackOK a b => rfl
      | logOK a b c => rfl
      | logERR a b c => rfl
    simp only [fallbackFailTrace]
    rw [output_append, output_append, h1]
    simp [output, writePayload]

/-- C1 witness: the amended fallback behaviour at the concrete sector
(0, 0, 1) of a device whose sector reads always fail. -/
theorem C1_fallback_retry_trace_witness :
    do_sect failReadDev 0 0 1 ⟨initBuf 1, 0, []⟩ =
      (true, ⟨initBuf 1, 0 + 1,
        [] ++ fallbackFailTrace 0 0 1 (memChunk (initBuf 1) 512)⟩) ∧
    readCount 0 0 1 (fallbackFailTrace 0 0 1 (memChunk (initBuf 1) 512)) = 11 ∧
    resetCount (fallbackFailTrace 0 0 1 (memChunk (initBuf 1) 512)) = 10 ∧
    errCount 0 0 1 (fallbackFailTrace 0 0 1 (memChunk (initBuf 1) 512)) = 1 ∧
    output (fallbackFailTrace 0 0 1 (memChunk (initBuf 1) 512)) = memChunk (initBuf 1) 512 ∧
    (memChunk (initBuf 1) 512).length = 512 :=
  C1_fallback_retry_trace failReadDev 0 0 1 ⟨initBuf 1, 0, []⟩ (fun k => rfl) rfl
